import Mathlib

/-!
Verification of the RAG retrieval layer (document chunker, USearch-backed
vector store, and retrieval backend) of the runanywhere SDK, via a shallow
embedding of the C++ sources in Lean 4.

Text is modelled as `List Char`, C++ `float` values as `Rat` (the arithmetic
the code performs on them — `min`, comparison, `1 - x` — is exact), machine
counters as `Nat`, json objects as association lists, and throwing calls as
`Except`.  The USearch ANN engine is an external dependency (not part of the
repository): it is modelled as the list of `(key, vector)` pairs the store
inserted, with the nearest-neighbour ranking abstracted by an arbitrary
metric parameter `dist`.
-/

namespace RAGSpec

/-- Text modelled as a list of characters (C++ `std::string`, byte-wise). -/
abbrev Str := List Char

/-- Embedding vector (C++ `std::vector<float>`). -/
abbrev Vec := List Rat

-- =========================================================================
-- Chunker (rag_chunker.cpp)
-- =========================================================================

/-- `ChunkerConfig` from rag_chunker.h. -/
structure ChunkerConfig where
  chunk_size : Nat
  chunk_overlap : Nat
  chars_per_token : Nat

/-- `TextChunk` from rag_chunker.h. -/
structure TextChunk where
  text : Str
  start_position : Nat
  end_position : Nat
  chunk_index : Nat

/-- C-locale `isspace`: space, tab, newline, vertical tab, form feed, CR. -/
def isSpaceC (c : Char) : Bool :=
  c == ' ' || c == '\t' || c == '\n' || c == Char.ofNat 11 || c == Char.ofNat 12 || c == '\r'

/-- The trim character set `" \t\n\r"` used by `split_by_boundaries`. -/
def isTrimWS (c : Char) : Bool :=
  c == ' ' || c == '\t' || c == '\n' || c == '\r'

/-- `DocumentChunker::find_sentence_boundaries`: position 0, then `i+1` for
every `.`, `!`, `?` or newline at `i` followed by whitespace, then the text
length. -/
def find_sentence_boundaries (text : Str) : List Nat :=
  (0 :: (List.range text.length).filterMap (fun i =>
    let c := text.getD i ' '
    if (c == '.' || c == '!' || c == '?' || c == '\n')
        && decide (i + 1 < text.length) && isSpaceC (text.getD (i + 1) ' ')
    then some (i + 1) else none)) ++ [text.length]

/-- The `end_pos` computation of `split_by_boundaries`: the first boundary at
or after `target`, defaulting to the text length. -/
def findEnd (boundaries : List Nat) (len target : Nat) : Nat :=
  match boundaries.find? (fun b => decide (target ≤ b)) with
  | some b => b
  | none => len

/-- Drop trailing characters of the trim set. -/
def dropTrailingWS (s : Str) : Str :=
  (s.reverse.dropWhile isTrimWS).reverse

/-- The trim step of `split_by_boundaries`: substring from the first to the
last character outside `" \t\n\r"`.  When every character is in the trim set
(`find_first_not_of` returns `npos`) the text is left unchanged — this
faithfully reproduces the source, where the substring assignment is guarded
by both indices being distinct from `npos`. -/
def trimOr (s : Str) : Str :=
  let t := dropTrailingWS (s.dropWhile isTrimWS)
  if t.isEmpty then s else t

/-- The merge branch of `split_by_boundaries`: append `" " + text.substr(start_pos)`
to the last chunk's text and stretch its `end_position` to the text length. -/
def mergeLast : List TextChunk → Str → Nat → List TextChunk
  | [], _, _ => []
  | [c], tail, len => [{ c with text := c.text ++ ' ' :: tail, end_position := len }]
  | c :: c' :: rest, tail, len => c :: mergeLast (c' :: rest) tail len

/-- The `while` loop of `DocumentChunker::split_by_boundaries`, with explicit
fuel because the C++ loop does not terminate for every configuration. -/
def splitLoop (text : Str) (boundaries : List Nat) (cs ov : Nat) :
    Nat → Nat → Nat → List TextChunk → Option (List TextChunk)
  | 0, _, _, _ => none
  | fuel + 1, start_pos, chunk_index, acc =>
    if start_pos < text.length then
      let target_end := start_pos + cs
      let end_pos := findEnd boundaries text.length target_end
      if decide (end_pos - start_pos < cs / 2) && decide (0 < chunk_index) then
        match acc with
        | [] => some []
        | _ :: _ => some (mergeLast acc (text.drop start_pos) text.length)
      else
        let raw := (text.drop start_pos).take (end_pos - start_pos)
        let trimmed := trimOr raw
        let acc' := if trimmed.isEmpty then acc
          else acc ++ [⟨trimmed, start_pos, end_pos, chunk_index⟩]
        if text.length ≤ end_pos then some acc'
        else splitLoop text boundaries cs ov fuel
          (if ov < end_pos then end_pos - ov else end_pos) (chunk_index + 1) acc'
    else some acc

/-- `DocumentChunker::chunk_document`, fuelled.  `none` means the fuel ran
out before the C++ loop would have exited. -/
def chunk_document (cfg : ChunkerConfig) (text : Str) (fuel : Nat) :
    Option (List TextChunk) :=
  if text.isEmpty then some []
  else splitLoop text (find_sentence_boundaries text)
    (cfg.chunk_size * cfg.chars_per_token) (cfg.chunk_overlap * cfg.chars_per_token)
    fuel 0 0 []

/-- Divergence of `chunk_document` on a given input: no amount of fuel makes
the loop exit. -/
def ChunkDocumentDiverges (cfg : ChunkerConfig) (text : Str) : Prop :=
  ∀ fuel, chunk_document cfg text fuel = none

-- =========================================================================
-- Json values (nlohmann::json)
-- =========================================================================

/-- Minimal model of the `nlohmann::json` values the RAG layer builds. -/
inductive JValue where
  | str : Str → JValue
  | num : Nat → JValue
  | rat : Rat → JValue
  | arr : List JValue → JValue
  | obj : List (Str × JValue) → JValue

/-- A json object, modelled as an association list of key/value pairs. -/
abbrev Json := List (Str × JValue)

/-- Map assignment `m[k] = v` (both `std::unordered_map::operator[]` and
`nlohmann::json::operator[]`): replace the value at an existing key, append
a fresh pair otherwise. -/
def insertKV {α β : Type} [BEq α] (m : List (α × β)) (k : α) (v : β) : List (α × β) :=
  if m.any (fun p => p.1 == k) then m.map (fun p => if p.1 == k then (k, v) else p)
  else m ++ [(k, v)]

/-- Map lookup returning the associated value, if any. -/
def lookupKV {α β : Type} [BEq α] (m : List (α × β)) (k : α) : Option β :=
  (m.find? (fun p => p.1 == k)).map Prod.snd

-- =========================================================================
-- Vector store (vector_store_usearch.cpp)
-- =========================================================================

/-- `DocumentChunk` from vector_store_usearch.h. -/
structure DocumentChunk where
  id : Str
  text : Str
  embedding : Vec
  metadata : Json

/-- `SearchResult` from vector_store_usearch.h. -/
structure SearchResult where
  id : Str
  chunk_id : Str
  text : Str
  score : Rat
  similarity : Rat
  metadata : Json

/-- `VectorStoreConfig` from vector_store_usearch.h. -/
structure VectorStoreConfig where
  dimension : Nat
  max_elements : Nat
  connectivity : Nat
  expansion_add : Nat
  expansion_search : Nat

/-- State of `VectorStoreUSearch::Impl`.  The USearch index is modelled by
the list of `(key, vector)` pairs it holds; `retired` is a ghost field
recording the keys removed by `remove_chunk` since the last `clear`, used to
state the key-reuse invariant. -/
structure StoreState where
  config : VectorStoreConfig
  index : List (Nat × Vec)
  chunks : List (Nat × DocumentChunk)
  id_to_key : List (Str × Nat)
  next_key : Nat
  retired : List Nat

/-- A freshly constructed store. -/
def initStore (cfg : VectorStoreConfig) : StoreState :=
  ⟨cfg, [], [], [], 0, []⟩

/-- `VectorStoreUSearch::Impl::add_chunk`: reject a wrong-dimension embedding
or a duplicate id without mutation; otherwise take the next key from the
monotone counter and insert into the index and both maps. -/
def add_chunk (st : StoreState) (c : DocumentChunk) : Bool × StoreState :=
  if c.embedding.length ≠ st.config.dimension then (false, st)
  else if (lookupKV st.id_to_key c.id).isSome then (false, st)
  else
    let key := st.next_key
    (true, { st with
      next_key := st.next_key + 1,
      index := st.index ++ [(key, c.embedding)],
      chunks := insertKV st.chunks key c,
      id_to_key := insertKV st.id_to_key c.id key })

/-- `VectorStoreUSearch::Impl::add_chunks_batch`: per-item validation with
the same logic as `add_chunk`, continuing past failures; the returned flag
is true iff at least one insertion succeeded. -/
def add_chunks_batch (st : StoreState) (cs : List DocumentChunk) : Bool × StoreState :=
  cs.foldl (fun acc c =>
    let r := add_chunk acc.2 c
    (acc.1 || r.1, r.2)) (false, st)

/-- `VectorStoreUSearch::Impl::remove_chunk`: look the id up, remove key and
id from the index and both maps; the key is recorded as retired. -/
def remove_chunk (st : StoreState) (id : Str) : Bool × StoreState :=
  match lookupKV st.id_to_key id with
  | none => (false, st)
  | some key =>
    (true, { st with
      index := st.index.filter (fun p => !(p.1 == key)),
      chunks := st.chunks.filter (fun p => !(p.1 == key)),
      id_to_key := st.id_to_key.filter (fun p => !(p.1 == id)),
      retired := st.retired ++ [key] })

/-- `VectorStoreUSearch::Impl::clear`: empty the index and both maps and
reset the key counter to zero. -/
def clearStore (st : StoreState) : StoreState :=
  { st with index := [], chunks := [], id_to_key := [], next_key := 0, retired := [] }

/-- `VectorStoreUSearch::Impl::size`: the number of vectors in the index. -/
def storeSize (st : StoreState) : Nat :=
  st.index.length

/-- Insertion of one match into a distance-ascending list. -/
def insertSorted (m : Nat × Rat) : List (Nat × Rat) → List (Nat × Rat)
  | [] => [m]
  | x :: xs => if m.2 ≤ x.2 then m :: x :: xs else x :: insertSorted m xs

/-- Sort matches by ascending distance. -/
def sortByDist (l : List (Nat × Rat)) : List (Nat × Rat) :=
  l.foldr insertSorted []

/-- The USearch `index_.search(query, top_k)` call.  The HNSW engine is an
external dependency, modelled as exact top-k retrieval over the stored
vectors under an arbitrary metric `dist` (the real engine's cosine metric is
one instance); every theorem below holds for every `dist`. -/
def annSearch (dist : Vec → Vec → Rat) (index : List (Nat × Vec)) (q : Vec)
    (top_k : Nat) : List (Nat × Rat) :=
  (sortByDist (index.map (fun p => (p.1, dist q p.2)))).take top_k

/-- `VectorStoreUSearch::Impl::search`: validate the query dimension and a
non-empty index, obtain the top-k matches, convert distance to similarity
`1 - d`, filter by the effective threshold `min(threshold, 0.15)`, and drop
matches whose key has no metadata entry. -/
def searchStore (dist : Vec → Vec → Rat) (st : StoreState) (q : Vec)
    (top_k : Nat) (threshold : Rat) : List SearchResult :=
  if q.length ≠ st.config.dimension then []
  else if st.index.length == 0 then []
  else
    let effective_threshold := min threshold (3 / 20 : Rat)
    (annSearch dist st.index q top_k).filterMap (fun m =>
      let similarity := 1 - m.2
      if similarity < effective_threshold then none
      else match lookupKV st.chunks m.1 with
        | none => none
        | some c => some
            { id := c.id, chunk_id := c.id, text := c.text,
              score := similarity, similarity := similarity, metadata := c.metadata })

/-- The pair of files written by `VectorStoreUSearch::Impl::save`: the native
index file and the sidecar metadata json (`next_key` plus one record per
live chunk). -/
structure SavedFile where
  index : List (Nat × Vec)
  next_key : Nat
  chunks : List (Nat × DocumentChunk)

/-- `VectorStoreUSearch::Impl::save`. -/
def save (st : StoreState) : SavedFile :=
  ⟨st.index, st.next_key, st.chunks⟩

/-- The chunk-map reconstruction loop of `load`: `new_chunks[key] = chunk`
for every record in file order. -/
def rebuildChunks (l : List (Nat × DocumentChunk)) : List (Nat × DocumentChunk) :=
  l.foldl (fun m p => insertKV m p.1 p.2) []

/-- The id-map reconstruction loop of `load`: `new_id_to_key[chunk.id] = key`
for every record in file order. -/
def rebuildIdToKey (l : List (Nat × DocumentChunk)) : List (Str × Nat) :=
  l.foldl (fun m p => insertKV m p.2.id p.1) []

/-- `VectorStoreUSearch::Impl::load` on a successfully parsed file: the
native index is restored, the two maps are rebuilt from the sidecar records,
and the key counter is restored exactly.  No dimension validation is
performed on the loaded embeddings. -/
def load (st : StoreState) (f : SavedFile) : Bool × StoreState :=
  (true, { st with
    index := f.index,
    chunks := rebuildChunks f.chunks,
    id_to_key := rebuildIdToKey f.chunks,
    next_key := f.next_key })

-- =========================================================================
-- Store operation sequences (for the reachable-state invariants)
-- =========================================================================

/-- One public mutating operation on the vector store. -/
inductive StoreOp where
  | add : DocumentChunk → StoreOp
  | addBatch : List DocumentChunk → StoreOp
  | remove : Str → StoreOp
  | clearOp : StoreOp

/-- Apply one operation to the store state. -/
def applyOp (st : StoreState) : StoreOp → StoreState
  | .add c => (add_chunk st c).2
  | .addBatch cs => (add_chunks_batch st cs).2
  | .remove id => (remove_chunk st id).2
  | .clearOp => clearStore st

/-- Apply a sequence of operations in order. -/
def applyOps (st : StoreState) (ops : List StoreOp) : StoreState :=
  ops.foldl applyOp st

/-- The keys of the live chunks. -/
def liveKeys (st : StoreState) : List Nat :=
  st.chunks.map Prod.fst

/-- Key-management invariant of the store: live keys are distinct and below
the counter, retired keys are below the counter and not live, the id map has
distinct ids, distinct keys, and only points at live keys. -/
def KeysOk (st : StoreState) : Prop :=
  (liveKeys st).Nodup
  ∧ (∀ k ∈ liveKeys st, k < st.next_key)
  ∧ (∀ k ∈ st.retired, k < st.next_key)
  ∧ (∀ k ∈ st.retired, k ∉ liveKeys st)
  ∧ (st.id_to_key.map Prod.fst).Nodup
  ∧ (st.id_to_key.map Prod.snd).Nodup
  ∧ (∀ p ∈ st.id_to_key, p.2 ∈ liveKeys st)

/-- Dimension invariant of the store: every held chunk's embedding has the
configured dimension. -/
def DimOk (st : StoreState) : Prop :=
  ∀ p ∈ st.chunks, p.2.embedding.length = st.config.dimension

-- =========================================================================
-- Retrieval backend (rag_backend.cpp)
-- =========================================================================

/-- `RAGBackendConfig` from rag_backend.h. -/
structure RAGBackendConfig where
  embedding_dimension : Nat
  top_k : Nat
  similarity_threshold : Rat
  max_context_tokens : Nat
  chunk_size : Nat
  chunk_overlap : Nat
  prompt_template : Str

/-- The `IEmbeddingProvider` capability: `embed` may throw (modelled by
`Except`), `dim` is `dimension()`, `ready` is `is_ready()`. -/
structure EmbeddingProvider where
  ready : Bool
  dim : Nat
  embed : Str → Except Str Vec

/-- `GenerationOptions` from inference_provider.h. -/
structure GenerationOptions where
  max_tokens : Int
  temperature : Rat
  top_p : Rat
  top_k : Int
  use_sampling : Bool
  stop_sequences : List Str

/-- `GenerationResult` from inference_provider.h. -/
structure GenerationResult where
  text : Str
  tokens_generated : Int
  prompt_tokens : Int
  finished : Bool
  stop_reason : Str
  metadata : Json
  success : Bool

/-- A default-constructed `GenerationResult` (`success` defaults to true,
`metadata` to an empty object). -/
def defaultGenResult : GenerationResult :=
  ⟨[], 0, 0, false, [], [], true⟩

/-- The `ITextGenerator` capability: `generate` may throw. -/
structure TextGenerator where
  ready : Bool
  generate : Str → GenerationOptions → Except Str GenerationResult

/-- State of `RAGBackend`. -/
structure Backend where
  config : RAGBackendConfig
  store : StoreState
  provider : Option EmbeddingProvider
  generator : Option TextGenerator
  initialized : Bool
  next_chunk_id : Nat

/-- The chunker configuration the backend constructor builds: chunk size and
overlap from the backend config, `chars_per_token` left at its default 4. -/
def backendChunkerConfig (cfg : RAGBackendConfig) : ChunkerConfig :=
  ⟨cfg.chunk_size, cfg.chunk_overlap, 4⟩

/-- `RAGBackend::set_embedding_provider`: install the new handle; when it is
present and ready, overwrite `config_.embedding_dimension` with the
provider's dimension. -/
def set_embedding_provider (b : Backend) (p : Option EmbeddingProvider) : Backend :=
  let b1 := { b with provider := p }
  match p with
  | some pr =>
    if pr.ready then
      { b1 with config := { b1.config with embedding_dimension := pr.dim } }
    else b1
  | none => b1

/-- The id string `"chunk_" + next_chunk_id` built by `add_document`. -/
def chunkIdStr (n : Nat) : Str :=
  "chunk_".data ++ (Nat.repr n).data

/-- The per-chunk loop of `RAGBackend::add_document`: embed the chunk text
(a throw aborts with `false`), skip the chunk when the embedding length
mismatches the configured dimension, otherwise build the `DocumentChunk`
(id from the counter, provenance prefix of the source text in the metadata)
and insert it; a failed insertion aborts with `false`.  Returns the flag,
the store, and the chunk-id counter. -/
def add_document_loop (p : EmbeddingProvider) (dim : Nat) (docmeta : Json)
    (doctext : Str) : List Str → StoreState → Nat → Bool × StoreState × Nat
  | [], st, cid => (true, st, cid)
  | t :: rest, st, cid =>
    match p.embed t with
    | .error _ => (false, st, cid)
    | .ok emb =>
      if emb.length ≠ dim then add_document_loop p dim docmeta doctext rest st cid
      else
        let c : DocumentChunk :=
          { id := chunkIdStr cid, text := t, embedding := emb,
            metadata := insertKV docmeta "source_text".data (JValue.str (doctext.take 100)) }
        let r := add_chunk st c
        if r.1 then add_document_loop p dim docmeta doctext rest r.2 (cid + 1)
        else (false, r.2, cid + 1)

/-- `RAGBackend::add_document`, fuelled through the chunker (`none` when the
chunker loop does not exit within the fuel). -/
def add_document (fuel : Nat) (b : Backend) (text : Str) (meta : Json) :
    Option (Bool × Backend) :=
  if b.initialized = false then some (false, b)
  else match b.provider with
  | none => some (false, b)
  | some p =>
    if p.ready = false then some (false, b)
    else match chunk_document (backendChunkerConfig b.config) text fuel with
      | none => none
      | some chunks =>
        let r := add_document_loop p b.config.embedding_dimension meta text
          (chunks.map TextChunk.text) b.store b.next_chunk_id
        some (r.1, { b with store := r.2.1, next_chunk_id := r.2.2 })

/-- `RAGBackend::search_with_provider`: empty result when uninitialized or
the provider is absent or unready; embed the query (an exception is caught
and yields an empty result); empty result on a dimension mismatch; otherwise
delegate to the store's search. -/
def search_with_provider (dist : Vec → Vec → Rat) (st : StoreState) (q : Str)
    (top_k : Nat) (p : Option EmbeddingProvider) (dim : Nat) (threshold : Rat)
    (initialized : Bool) : List SearchResult :=
  if initialized = false then []
  else match p with
  | none => []
  | some pr =>
    if pr.ready = false then []
    else match pr.embed q with
      | .error _ => []
      | .ok emb => if emb.length ≠ dim then [] else searchStore dist st emb top_k threshold

/-- `RAGBackend::build_context`: concatenate the result texts separated by
blank lines, in result order. -/
def build_context (results : List SearchResult) : Str :=
  match results with
  | [] => []
  | r :: rest => rest.foldl (fun acc x => acc ++ "\n\n".data ++ x.text) r.text

/-- Replace the first occurrence of `pat` in the text, if any. -/
def replaceFirst (pat repl : Str) : Str → Str
  | [] => []
  | c :: rest =>
    if pat.isPrefixOf (c :: rest) then repl ++ (c :: rest).drop pat.length
    else c :: replaceFirst pat repl rest

/-- The prompt formatting of `query`: substitute the context then the query
at the first occurrence of each placeholder. -/
def format_prompt (tmpl q context : Str) : Str :=
  replaceFirst "{query}".data q (replaceFirst "{context}".data context tmpl)

/-- The canned insufficient-information answer of `query` (built without an
apostrophe literal). -/
def cannedNoContext : Str :=
  "I don".data ++ [Char.ofNat 39] ++ "t have enough information to answer that question.".data

/-- The `sources` array `query` attaches on generator success. -/
def sourcesJson (results : List SearchResult) : JValue :=
  JValue.arr (results.map (fun r =>
    JValue.obj ([("id".data, JValue.str r.id), ("score".data, JValue.rat r.score)] ++
      (match lookupKV r.metadata "source_text".data with
       | some v => [("source".data, v)]
       | none => []))))

/-- `RAGBackend::query`: validate both capabilities (structured failure
otherwise); search; on zero results return the successful canned answer with
`metadata["reason"] = "no_context"`; otherwise build the context, format the
prompt, invoke the generator (a throw is converted to a failure result
carrying the error text), and on generator success attach the chunk count,
context length and sources metadata. -/
def query (dist : Vec → Vec → Rat) (b : Backend) (q : Str)
    (opts : GenerationOptions) : GenerationResult :=
  match b.provider with
  | none => { defaultGenResult with
      text := "Error: Embedding provider not available".data, success := false }
  | some p =>
    if p.ready = false then
      { defaultGenResult with
        text := "Error: Embedding provider not available".data, success := false }
    else match b.generator with
    | none => { defaultGenResult with
        text := "Error: Text generator not available".data, success := false }
    | some g =>
      if g.ready = false then
        { defaultGenResult with
          text := "Error: Text generator not available".data, success := false }
      else
        let results := search_with_provider dist b.store q b.config.top_k (some p)
          b.config.embedding_dimension b.config.similarity_threshold b.initialized
        if results.isEmpty then
          { defaultGenResult with
            text := cannedNoContext, success := true,
            metadata := insertKV ([] : Json) "reason".data (JValue.str "no_context".data) }
        else
          let context := build_context results
          let prompt := format_prompt b.config.prompt_template q context
          match g.generate prompt opts with
          | .error e => { defaultGenResult with
              text := "Error: ".data ++ e, success := false }
          | .ok r =>
            if r.success then
              let m1 := insertKV r.metadata "num_chunks".data (JValue.num results.length)
              let m2 := insertKV m1 "context_length".data (JValue.num context.length)
              let m3 := insertKV m2 "sources".data (sourcesJson results)
              { r with metadata := m3 }
            else r

-- =========================================================================
-- Concrete fixtures
-- =========================================================================

/-- The default `RAGBackendConfig` of rag_backend.h. -/
def cfgBase : RAGBackendConfig :=
  ⟨384, 3, 7 / 10, 2048, 512, 50, "Context:\n{context}\n\nQuestion: {query}\n\nAnswer:".data⟩

/-- A `VectorStoreConfig` with the given dimension and the header defaults
for the remaining knobs. -/
def storeCfg (d : Nat) : VectorStoreConfig := ⟨d, 100000, 16, 128, 64⟩

-- =========================================================================
-- C7: emitted chunks are trimmed and non-blank (code bug)
-- =========================================================================

/-- C7.  The claim states every emitted chunk is non-empty with no leading
or trailing whitespace, and that a chunk empty after trimming is dropped.
The code violates this: with `chunk_size=1, chunk_overlap=0,
chars_per_token=1` on the text `"a. "`, the second slice `" "` consists of
whitespace only, so `find_first_not_of` returns `npos`, the trim is skipped,
and the untrimmed whitespace chunk is emitted.  This theorem evaluates the
chunker at that failing input: the second emitted chunk has text `" "`. -/
theorem c7_theorem :
  chunk_document ⟨1, 0, 1⟩ "a. ".data 5 =
    some [⟨"a.".data, 0, 2, 0⟩, ⟨" ".data, 2, 3, 1⟩] := rfl

-- =========================================================================
-- C8: set_embedding_provider and the config (corrected)
-- =========================================================================

/-- A backend with the default configuration and no capabilities. -/
def b8 : Backend := ⟨cfgBase, initStore (storeCfg 384), none, none, true, 0⟩

/-- A ready provider whose dimension differs from the configured 384. -/
def p8 : EmbeddingProvider := ⟨true, 512, fun _ => .ok []⟩

/-- C8 counterexample.  Installing a ready provider of dimension 512 into a
backend configured with embedding dimension 384 mutates
`config_.embedding_dimension` in place, contradicting the claim that every
`RetrievalConfig` field is unchanged by `set_embedding_provider`. -/
theorem c8_counterexample :
  b8.config.embedding_dimension = 384
  ∧ (set_embedding_provider b8 (some p8)).config.embedding_dimension = 512 := ⟨rfl, rfl⟩

/-- C8 amended.  `set_embedding_provider` leaves every config field other
than `embedding_dimension` unchanged and installs the new handle;
`embedding_dimension` is overwritten with the provider's dimension exactly
when the new provider is ready, and kept otherwise. -/
theorem c8_theorem : ∀ (b : Backend) (p : EmbeddingProvider),
  (set_embedding_provider b (some p)).config.top_k = b.config.top_k
  ∧ (set_embedding_provider b (some p)).config.similarity_threshold = b.config.similarity_threshold
  ∧ (set_embedding_provider b (some p)).config.max_context_tokens = b.config.max_context_tokens
  ∧ (set_embedding_provider b (some p)).config.chunk_size = b.config.chunk_size
  ∧ (set_embedding_provider b (some p)).config.chunk_overlap = b.config.chunk_overlap
  ∧ (set_embedding_provider b (some p)).config.prompt_template = b.config.prompt_template
  ∧ (set_embedding_provider b (some p)).provider = some p
  ∧ (set_embedding_provider b (some p)).config.embedding_dimension
      = (if p.ready then p.dim else b.config.embedding_dimension) := by
  intro b p
  cases hp : p.ready <;> simp [set_embedding_provider, hp]

-- =========================================================================
-- C10: add_document has no rollback (confirmed)
-- =========================================================================

/-- A backend whose chunker yields two chunks on the test document. -/
def cfg10 : RAGBackendConfig := ⟨1, 3, 7 / 10, 2048, 1, 0, "{context} {query}".data⟩

/-- A provider that embeds the first chunk and throws on the second. -/
def p10 : EmbeddingProvider :=
  ⟨true, 1, fun t => if t = "ab. cd.".data then .ok [1] else .error "embed failed".data⟩

/-- Backend fixture for the partial-failure run. -/
def b10 : Backend := ⟨cfg10, initStore (storeCfg 1), some p10, none, true, 0⟩

/-- C10.  `add_document` is not atomic: on the document `"ab. cd. ef"` the
chunker yields the chunks `"ab. cd."` and `"ef"`; the first is embedded and
inserted, embedding the second throws, and the call returns false — yet the
store's size has grown from 0 to 1, with no rollback. -/
theorem c10_theorem :
  storeSize b10.store = 0
  ∧ (add_document 11 b10 "ab. cd. ef".data []).map Prod.fst = some false
  ∧ (add_document 11 b10 "ab. cd. ef".data []).map (fun r => storeSize r.2.store) = some 1 :=
  ⟨rfl, rfl, rfl⟩

-- =========================================================================
-- C3: dimension invariant and load (corrected)
-- =========================================================================

/-- A chunk of embedding length 2. -/
def chunkA : DocumentChunk := ⟨"a".data, "alpha".data, [1, 0], []⟩

/-- A dimension-2 store holding `chunkA`. -/
def stA : StoreState := (add_chunk (initStore (storeCfg 2)) chunkA).2

/-- C3 counterexample.  `load` performs no dimension validation: loading the
file persisted by a dimension-2 store into a fresh dimension-3 store
succeeds and stores a chunk whose embedding length 2 differs from the
configured dimension 3, so the invariant is not preserved by `load` from a
persisted file. -/
theorem c3_counterexample :
  (load (initStore (storeCfg 3)) (save stA)).1 = true
  ∧ (load (initStore (storeCfg 3)) (save stA)).2.config.dimension = 3
  ∧ (load (initStore (storeCfg 3)) (save stA)).2.chunks.map (fun p => p.2.embedding.length) = [2]
  ∧ ¬ DimOk (load (initStore (storeCfg 3)) (save stA)).2 := by
  refine ⟨rfl, rfl, rfl, ?_⟩
  intro h
  have hm : (0, chunkA) ∈ (load (initStore (storeCfg 3)) (save stA)).2.chunks :=
    show (0, chunkA) ∈ [(0, chunkA)] from List.mem_singleton.mpr rfl
  have := h (0, chunkA) hm
  exact absurd this (by decide)

-- =========================================================================
-- C6: add_document failure modes (corrected)
-- =========================================================================

/-- A ready provider whose `embed` always throws. -/
def p6 : EmbeddingProvider := ⟨true, 384, fun _ => .error "embedding failed".data⟩

/-- An initialized backend with the always-throwing provider. -/
def b6 : Backend := ⟨cfgBase, initStore (storeCfg 384), some p6, none, true, 0⟩

/-- C6 counterexample.  The claim says `add_document` returns false only
when the backend is uninitialized or the provider is missing or unready.
Here the backend is initialized and the provider ready, yet `add_document`
returns false, because embedding the chunk throws. -/
theorem c6_counterexample :
  b6.initialized = true
  ∧ b6.provider.map EmbeddingProvider.ready = some true
  ∧ (add_document 6 b6 "hello".data []).map Prod.fst = some false := ⟨rfl, rfl, rfl⟩

/-- C6 amended.  Within `add_document`, a chunk whose embedding comes back
with a length different from the configured dimension is skipped — the loop
continues on the remaining chunks with the store untouched — and a run in
which every embedding is wrong-dimension still returns true with the store
and counter unchanged.  However `add_document` returns false not only on
structural failures but also when embedding a chunk throws or a store
insertion fails (see the counterexample). -/
theorem c6_theorem :
  (∀ (p : EmbeddingProvider) (dim : Nat) (meta : Json) (doc t : Str) (rest : List Str)
     (st : StoreState) (cid : Nat) (emb : Vec),
     p.embed t = .ok emb → emb.length ≠ dim →
     add_document_loop p dim meta doc (t :: rest) st cid
       = add_document_loop p dim meta doc rest st cid)
  ∧ (∀ (p : EmbeddingProvider) (dim : Nat) (meta : Json) (doc : Str) (ts : List Str)
      (st : StoreState) (cid : Nat),
      (∀ t ∈ ts, ∃ emb, p.embed t = .ok emb ∧ emb.length ≠ dim) →
      add_document_loop p dim meta doc ts st cid = (true, st, cid)) := by
  constructor
  · intro p dim meta doc t rest st cid emb he hne
    simp only [add_document_loop, he, if_pos hne]
  · intro p dim meta doc ts
    induction ts with
    | nil => intro st cid _; rfl
    | cons t rest ih =>
      intro st cid h
      obtain ⟨emb, he, hne⟩ := h t (List.mem_cons_self t rest)
      simp only [add_document_loop, he, if_pos hne]
      exact ih st cid (fun x hx => h x (List.mem_cons_of_mem t hx))

/-- A ready provider always embedding to a vector of the wrong length 1. -/
def pW : EmbeddingProvider := ⟨true, 3, fun _ => .ok [0]⟩

/-- Witness for the C6 amended theorem at concrete inputs: with a provider
that always returns a wrong-dimension vector, a one-chunk run yields true
with the store unchanged, and a mismatching head chunk is skipped. -/
theorem c6_witness :
  add_document_loop pW 3 [] [] ["x".data] (initStore (storeCfg 3)) 0
      = (true, initStore (storeCfg 3), 0)
  ∧ add_document_loop pW 3 [] [] ["x".data, "y".data] (initStore (storeCfg 3)) 0
      = add_document_loop pW 3 [] [] ["y".data] (initStore (storeCfg 3)) 0 := by
  constructor
  · exact c6_theorem.2 pW 3 [] [] ["x".data] (initStore (storeCfg 3)) 0
      (fun t _ => ⟨[0], rfl, by decide⟩)
  · exact c6_theorem.1 pW 3 [] [] "x".data ["y".data] (initStore (storeCfg 3)) 0 [0] rfl (by decide)

-- =========================================================================
-- C5: no-context short circuit (confirmed)
-- =========================================================================

/-- The result `query` returns when the context search comes back empty. -/
def noContextResult : GenerationResult :=
  { defaultGenResult with
    text := cannedNoContext
    success := true
    metadata := [("reason".data, JValue.str "no_context".data)] }

/-- C5.  Whenever `query` runs with the embedding provider present and ready
and the text generator present and ready, and the context search returns
zero results, it returns a `GenerationResult` with `success = true`, the
canned insufficient-information answer, and `metadata["reason"] =
"no_context"` — never a failure result. -/
theorem c5_theorem : ∀ (dist : Vec → Vec → Rat) (b : Backend) (q : Str)
    (opts : GenerationOptions) (p : EmbeddingProvider) (g : TextGenerator),
  b.provider = some p → p.ready = true →
  b.generator = some g → g.ready = true →
  search_with_provider dist b.store q b.config.top_k (some p)
    b.config.embedding_dimension b.config.similarity_threshold b.initialized = [] →
  query dist b q opts = noContextResult := by
  intro dist b q opts p g hp hpr hg hgr hs
  unfold query
  rw [hp, hg]
  simp only [hpr, hgr, hs]
  norm_num
  rfl

/-- A trivial metric for the C5 witness. -/
def dist5 : Vec → Vec → Rat := fun _ _ => 0

/-- A ready provider embedding every text to the empty vector, so every
query has a dimension mismatch against 384 and the search is empty. -/
def p5 : EmbeddingProvider := ⟨true, 384, fun _ => .ok []⟩

/-- A ready generator for the C5 witness. -/
def g5 : TextGenerator := ⟨true, fun _ _ => .ok defaultGenResult⟩

/-- Backend fixture for the C5 witness: both capabilities ready, empty store. -/
def b5 : Backend := ⟨cfgBase, initStore (storeCfg 384), some p5, some g5, true, 0⟩

/-- Default generation options from inference_provider.h. -/
def opts5 : GenerationOptions := ⟨1024, 7 / 10, 9 / 10, 40, true, []⟩

/-- Witness for C5: an initialized backend with ready provider and generator
whose search returns no results produces exactly the canned no-context
success result. -/
theorem c5_witness :
  (b5.provider = some p5 ∧ p5.ready = true ∧ b5.generator = some g5 ∧ g5.ready = true
    ∧ search_with_provider dist5 b5.store "q".data b5.config.top_k (some p5)
        b5.config.embedding_dimension b5.config.similarity_threshold b5.initialized = [])
  ∧ query dist5 b5 "q".data opts5 = noContextResult :=
  ⟨⟨rfl, rfl, rfl, rfl, rfl⟩, c5_theorem dist5 b5 "q".data opts5 p5 g5 rfl rfl rfl rfl rfl⟩

-- =========================================================================
-- C1: effective search threshold min(t, 0.15) (confirmed)
-- =========================================================================

/-- C1.  For every metric, store state, query of the configured dimension,
`top_k` and requested threshold `t`, `search` filters by the effective
threshold `min t 0.15`: every returned result's similarity is at least
`min t 0.15`, and every neighbour whose key has a metadata entry and whose
similarity `1 - distance` is at least `min t 0.15` is returned (with that
similarity), even when it is below the requested `t`. -/
theorem c1_theorem : ∀ (dist : Vec → Vec → Rat) (st : StoreState) (q : Vec) (k : Nat) (t : Rat),
  q.length = st.config.dimension →
  (∀ r ∈ searchStore dist st q k t, min t (3 / 20 : Rat) ≤ r.similarity)
  ∧ (∀ m ∈ annSearch dist st.index q k, ∀ c, lookupKV st.chunks m.1 = some c →
      min t (3 / 20 : Rat) ≤ 1 - m.2 →
      ∃ r ∈ searchStore dist st q k t, r.id = c.id ∧ r.similarity = 1 - m.2) := by
  intro dist st q k t hq
  by_cases hidx : st.index.length == 0
  · constructor
    · intro r hr
      unfold searchStore at hr
      rw [if_neg (by simp [hq]), if_pos hidx] at hr
      exact absurd hr (List.not_mem_nil r)
    · intro m hm
      have hnil : st.index = [] := List.length_eq_zero.mp (by simpa using hidx)
      rw [hnil] at hm
      simp [annSearch, sortByDist] at hm
  · have hsearch : searchStore dist st q k t =
        (annSearch dist st.index q k).filterMap (fun m =>
          let similarity := 1 - m.2
          if similarity < min t (3 / 20 : Rat) then none
          else match lookupKV st.chunks m.1 with
            | none => none
            | some c => some
                { id := c.id, chunk_id := c.id, text := c.text,
                  score := similarity, similarity := similarity, metadata := c.metadata }) := by
      unfold searchStore
      rw [if_neg (by simp [hq]), if_neg hidx]
    constructor
    · intro r hr
      rw [hsearch] at hr
      obtain ⟨m, hm, hf⟩ := List.mem_filterMap.mp hr
      by_cases hlt : 1 - m.2 < min t (3 / 20 : Rat)
      · simp only [hlt, if_true] at hf
        exact absurd hf (by simp)
      · simp only [hlt, if_false] at hf
        cases hc : lookupKV st.chunks m.1 with
        | none => rw [hc] at hf; exact absurd hf (by simp)
        | some c =>
          rw [hc] at hf
          have hr_eq : r.similarity = 1 - m.2 := by
            cases hf
            rfl
          rw [hr_eq]
          exact not_lt.mp hlt
    · intro m hm c hc hge
      rw [hsearch]
      refine ⟨⟨c.id, c.id, c.text, 1 - m.2, 1 - m.2, c.metadata⟩,
        List.mem_filterMap.mpr ⟨m, hm, ?_⟩, rfl, rfl⟩
      simp only [not_lt.mpr hge, if_false, hc]

/-- A chunk with a one-dimensional embedding for the C1 witness. -/
def chunkW : DocumentChunk := ⟨"w".data, "walnut".data, [1], []⟩

/-- A dimension-1 store holding `chunkW`. -/
def st1 : StoreState := (add_chunk (initStore (storeCfg 1)) chunkW).2

/-- A metric assigning distance 0.8 — so similarity 0.2, below a requested
threshold of 0.9 but above the 0.15 ceiling. -/
def dist1 : Vec → Vec → Rat := fun _ _ => 4 / 5

/-- Witness for C1 at a concrete store and query, with requested threshold
0.9 and true similarity 0.2: the hypotheses hold and the theorem applies. -/
theorem c1_witness :
  (([1] : Vec).length = st1.config.dimension)
  ∧ ((∀ r ∈ searchStore dist1 st1 [1] 1 (9 / 10), min (9 / 10) (3 / 20 : Rat) ≤ r.similarity)
    ∧ (∀ m ∈ annSearch dist1 st1.index [1] 1, ∀ c, lookupKV st1.chunks m.1 = some c →
        min (9 / 10) (3 / 20 : Rat) ≤ 1 - m.2 →
        ∃ r ∈ searchStore dist1 st1 [1] 1 (9 / 10), r.id = c.id ∧ r.similarity = 1 - m.2)) :=
  ⟨rfl, c1_theorem dist1 st1 [1] 1 (9 / 10) rfl⟩

-- =========================================================================
-- C9: chunker termination (corrected)
-- =========================================================================

/-- A configuration whose overlap (2 chars) is at least its chunk size
(1 char). -/
def cfg9 : ChunkerConfig := ⟨1, 2, 1⟩

/-- The text on which the chunker loop cycles under `cfg9`. -/
def txt9 : Str := ". . . . ".data

/-- The sentence boundaries of `txt9` (`[0, 1, 3, 5, 7, 8]`). -/
def bnds9 : List Nat := find_sentence_boundaries txt9

/-- On `txt9` with chunk size 1 and overlap 2, the loop state with
`start_pos = 1` steps back to `start_pos = 1` (the next boundary is 3 and
`3 - 2 = 1`), so the loop never exits regardless of fuel. -/
theorem splitLoop_stuck9 : ∀ fuel idx acc, splitLoop txt9 bnds9 1 2 fuel 1 idx acc = none := by
  intro fuel
  induction fuel with
  | zero => intro idx acc; rfl
  | succ n ih =>
    intro idx acc
    have hstep : splitLoop txt9 bnds9 1 2 (n + 1) 1 idx acc
        = splitLoop txt9 bnds9 1 2 n 1 (idx + 1) (acc ++ [⟨".".data, 1, 3, idx⟩]) := rfl
    rw [hstep]
    exact ih (idx + 1) (acc ++ [⟨".".data, 1, 3, idx⟩])

/-- C9 counterexample.  With chunk_size 1, chunk_overlap 2 and
chars_per_token 1 on the text `". . . . "`, `chunk_document` does not
terminate: `start_pos = end_pos − overlap` moves backwards to a repeating
state, so the claim that the chunker terminates for every configuration is
false. -/
theorem c9_counterexample : ChunkDocumentDiverges cfg9 txt9 := by
  intro fuel
  cases fuel with
  | zero => rfl
  | succ n =>
    have h0 : chunk_document cfg9 txt9 (n + 1)
        = splitLoop txt9 bnds9 1 2 n 1 1 [⟨".".data, 0, 1, 0⟩] := rfl
    rw [h0]
    exact splitLoop_stuck9 n 1 [⟨".".data, 0, 1, 0⟩]

/-- When `findEnd` returns a position short of the text length, that
position is a boundary at or after the target. -/
theorem findEnd_target_le (bnds : List Nat) (len target : Nat)
    (h : findEnd bnds len target < len) : target ≤ findEnd bnds len target := by
  unfold findEnd at h ⊢
  cases hf : bnds.find? (fun b => decide (target ≤ b)) with
  | none => rw [hf] at h; exact absurd h (lt_irrefl len)
  | some b =>
    show target ≤ b
    have hb := List.find?_some hf
    simp only [decide_eq_true_eq] at hb
    exact hb

/-- When the overlap is strictly smaller than the chunk size, every
iteration strictly advances `start_pos`, so fuel exceeding the remaining
length suffices. -/
theorem splitLoop_terminates (text : Str) (bnds : List Nat) (cs ov : Nat) (hov : ov < cs) :
    ∀ fuel start idx acc, text.length - start < fuel →
    (splitLoop text bnds cs ov fuel start idx acc).isSome := by
  intro fuel
  induction fuel with
  | zero => intro start idx acc h; omega
  | succ n ih =>
    intro start idx acc h
    simp only [splitLoop]
    by_cases hs : start < text.length
    · rw [if_pos hs]
      by_cases hm : (decide (findEnd bnds text.length (start + cs) - start < cs / 2)
          && decide (0 < idx)) = true
      · rw [if_pos hm]
        cases acc <;> simp
      · rw [if_neg hm]
        by_cases hend : text.length ≤ findEnd bnds text.length (start + cs)
        · rw [if_pos hend]
          simp
        · rw [if_neg hend]
          have he_lt : findEnd bnds text.length (start + cs) < text.length := not_le.mp hend
          have he_ge : start + cs ≤ findEnd bnds text.length (start + cs) :=
            findEnd_target_le bnds text.length (start + cs) he_lt
          apply ih
          by_cases hov2 : ov < findEnd bnds text.length (start + cs)
          · rw [if_pos hov2]
            omega
          · rw [if_neg hov2]
            omega
    · rw [if_neg hs]
      simp

/-- C9 amended.  `chunk_document` terminates — fuel `text.length + 1`
suffices — for every input text and every configuration whose overlap in
characters is strictly smaller than its chunk size in characters; without
that restriction the loop can fail to terminate (see the counterexample). -/
theorem c9_theorem : ∀ (cfg : ChunkerConfig) (text : Str),
  cfg.chunk_overlap * cfg.chars_per_token < cfg.chunk_size * cfg.chars_per_token →
  (chunk_document cfg text (text.length + 1)).isSome := by
  intro cfg text hov
  unfold chunk_document
  by_cases ht : text.isEmpty
  · rw [if_pos ht]; simp
  · rw [if_neg ht]
    exact splitLoop_terminates text _ _ _ hov (text.length + 1) 0 0 [] (by omega)

/-- Witness for the C9 amended theorem at a concrete configuration
(chunk size 2, overlap 1, one char per token) and text. -/
theorem c9_witness :
  (1 * 1 < 2 * 1) ∧ (chunk_document ⟨2, 1, 1⟩ "ab".data ("ab".data.length + 1)).isSome :=
  ⟨by decide, c9_theorem ⟨2, 1, 1⟩ "ab".data (by decide)⟩

-- =========================================================================
-- Key-management and dimension invariants (C2, C3, C4)
-- =========================================================================

theorem insertKV_append {α β : Type} [BEq α] (m : List (α × β)) (k : α) (v : β)
    (h : m.any (fun p => p.1 == k) = false) : insertKV m k v = m ++ [(k, v)] := by
  unfold insertKV
  rw [h]
  simp

theorem mem_insertKV {α β : Type} [BEq α] {m : List (α × β)} {k : α} {v : β} {q : α × β}
    (hq : q ∈ insertKV m k v) : q ∈ m ∨ q = (k, v) := by
  unfold insertKV at hq
  by_cases h : m.any (fun p => p.1 == k) = true
  · rw [if_pos h] at hq
    obtain ⟨p, hp, he⟩ := List.mem_map.mp hq
    by_cases hk : (p.1 == k) = true
    · rw [if_pos hk] at he
      right; exact he.symm
    · rw [if_neg hk] at he
      left; rw [← he]; exact hp
  · rw [if_neg h] at hq
    rcases List.mem_append.mp hq with h1 | h2
    · left; exact h1
    · right; simpa using h2

theorem lookupKV_none_any {α β : Type} [BEq α] {m : List (α × β)} {k : α}
    (h : (lookupKV m k).isSome = false) : m.any (fun p => p.1 == k) = false := by
  unfold lookupKV at h
  cases hf : m.find? (fun p => p.1 == k) with
  | none =>
    rw [List.any_eq_false]
    intro p hp
    have := List.find?_eq_none.mp hf p hp
    simpa using this
  | some p => rw [hf] at h; simp at h

theorem add_chunk_KeysOk (st : StoreState) (c : DocumentChunk) (h : KeysOk st) :
    KeysOk (add_chunk st c).2 := by
  obtain ⟨h1, h2, h3, h4, h5, h6, h7⟩ := h
  unfold add_chunk
  by_cases hd : c.embedding.length ≠ st.config.dimension
  · rw [if_pos hd]
    exact ⟨h1, h2, h3, h4, h5, h6, h7⟩
  rw [if_neg hd]
  by_cases hdup : (lookupKV st.id_to_key c.id).isSome = true
  · rw [if_pos hdup]
    exact ⟨h1, h2, h3, h4, h5, h6, h7⟩
  rw [if_neg hdup]
  have hany : st.chunks.any (fun p => p.1 == st.next_key) = false := by
    rw [List.any_eq_false]
    intro p hp
    have : p.1 < st.next_key := h2 p.1 (List.mem_map_of_mem Prod.fst hp)
    simp
    omega
  have hany2 : st.id_to_key.any (fun p => p.1 == c.id) = false :=
    lookupKV_none_any (by simpa using hdup)
  have hch : insertKV st.chunks st.next_key c = st.chunks ++ [(st.next_key, c)] :=
    insertKV_append _ _ _ hany
  have hid : insertKV st.id_to_key c.id st.next_key = st.id_to_key ++ [(c.id, st.next_key)] :=
    insertKV_append _ _ _ hany2
  refine ⟨?_, ?_, ?_, ?_, ?_, ?_, ?_⟩ <;>
    simp only [liveKeys, hch, hid, List.map_append, List.map_cons, List.map_nil]
  · rw [List.nodup_append]
    refine ⟨h1, List.nodup_singleton _, ?_⟩
    intro a ha hb
    simp at hb
    subst hb
    exact absurd (h2 _ ha) (lt_irrefl _)
  · intro k hk
    rcases List.mem_append.mp hk with hk | hk
    · exact Nat.lt_succ_of_lt (h2 k hk)
    · simp at hk; omega
  · intro k hk
    exact Nat.lt_succ_of_lt (h3 k hk)
  · intro k hk
    have hlt := h3 k hk
    intro hmem
    rcases List.mem_append.mp hmem with hm | hm
    · exact h4 k hk hm
    · simp at hm; omega
  · rw [List.nodup_append]
    refine ⟨h5, List.nodup_singleton _, ?_⟩
    intro a ha hb
    simp only [List.mem_singleton] at hb
    obtain ⟨p, hp, he⟩ := List.mem_map.mp ha
    have hpc : st.id_to_key.any (fun q => q.1 == c.id) = true := by
      rw [List.any_eq_true]
      exact ⟨p, hp, by simp [he, hb]⟩
    rw [hany2] at hpc
    exact Bool.false_ne_true hpc
  · rw [List.nodup_append]
    refine ⟨h6, List.nodup_singleton _, ?_⟩
    intro a ha hb
    simp only [List.mem_singleton] at hb
    obtain ⟨p, hp, he⟩ := List.mem_map.mp ha
    have hlive : p.2 ∈ liveKeys st := h7 p hp
    have := h2 _ hlive
    omega
  · intro p hp
    rcases List.mem_append.mp hp with hm | hm
    · exact List.mem_append_left _ (h7 p hm)
    · simp at hm
      subst hm
      simp

theorem find_entry_of_lookupKV {α β : Type} [BEq α] [LawfulBEq α] {m : List (α × β)} {k : α} {v : β}
    (h : lookupKV m k = some v) : (k, v) ∈ m := by
  unfold lookupKV at h
  cases hf : m.find? (fun p => p.1 == k) with
  | none => rw [hf] at h; simp at h
  | some p =>
    rw [hf] at h
    simp at h
    have hp := List.mem_of_find?_eq_some hf
    have hk := List.find?_some hf
    simp at hk
    have : p = (k, v) := by
      cases p
      simp_all
    rw [← this]
    exact hp

theorem remove_chunk_KeysOk (st : StoreState) (id : Str) (h : KeysOk st) :
    KeysOk (remove_chunk st id).2 := by
  obtain ⟨h1, h2, h3, h4, h5, h6, h7⟩ := h
  unfold remove_chunk
  cases hl : lookupKV st.id_to_key id with
  | none => exact ⟨h1, h2, h3, h4, h5, h6, h7⟩
  | some key =>
  dsimp only
  have hentry : (id, key) ∈ st.id_to_key := find_entry_of_lookupKV hl
  have hkey_live : key ∈ liveKeys st := h7 (id, key) hentry
  have hkey_lt : key < st.next_key := h2 key hkey_live
  have hsub_ch : (st.chunks.filter (fun p => !(p.1 == key))).Sublist st.chunks :=
    List.filter_sublist _
  have hsub_id : (st.id_to_key.filter (fun p => !(p.1 == id))).Sublist st.id_to_key :=
    List.filter_sublist _
  refine ⟨?_, ?_, ?_, ?_, ?_, ?_, ?_⟩
  · exact List.Nodup.sublist (hsub_ch.map Prod.fst) h1
  · intro k hk
    obtain ⟨p, hp, he⟩ := List.mem_map.mp hk
    have hpm : p ∈ st.chunks := hsub_ch.mem hp
    rw [← he]
    exact h2 p.1 (List.mem_map_of_mem Prod.fst hpm)
  · intro k hk
    rcases List.mem_append.mp hk with hm | hm
    · exact h3 k hm
    · simp only [List.mem_singleton] at hm
      exact hm ▸ hkey_lt
  · intro k hk hmem
    obtain ⟨p, hp, he⟩ := List.mem_map.mp hmem
    have hpf := List.of_mem_filter hp
    have hpm : p ∈ st.chunks := hsub_ch.mem hp
    rcases List.mem_append.mp hk with hm | hm
    · exact h4 k hm (he ▸ List.mem_map_of_mem Prod.fst hpm)
    · simp only [List.mem_singleton] at hm
      subst hm
      simp only [Bool.not_eq_true', beq_eq_false_iff_ne, ne_eq] at hpf
      exact hpf (by rw [he])
  · exact List.Nodup.sublist (hsub_id.map Prod.fst) h5
  · exact List.Nodup.sublist (hsub_id.map Prod.snd) h6
  · intro p hp
    have hpf := List.of_mem_filter hp
    have hpm : p ∈ st.id_to_key := hsub_id.mem hp
    have hplive : p.2 ∈ liveKeys st := h7 p hpm
    simp only [Bool.not_eq_true', beq_eq_false_iff_ne, ne_eq] at hpf
    have hpk : p.2 ≠ key := by
      intro hpke
      have hpq : p = (id, key) :=
        List.inj_on_of_nodup_map h6 hpm hentry (by simpa using hpke)
      exact hpf (by rw [hpq])
    obtain ⟨q, hq, hqe⟩ := List.mem_map.mp hplive
    rw [← hqe]
    refine List.mem_map_of_mem Prod.fst (List.mem_filter.mpr ⟨hq, ?_⟩)
    simp only [Bool.not_eq_true', beq_eq_false_iff_ne, ne_eq]
    rw [hqe]
    exact hpk

theorem clearStore_KeysOk (st : StoreState) : KeysOk (clearStore st) := by
  unfold clearStore KeysOk liveKeys
  simp

theorem add_chunks_batch_snd (cs : List DocumentChunk) :
    ∀ (st : StoreState) (b : Bool),
    (cs.foldl (fun acc c => let r := add_chunk acc.2 c; (acc.1 || r.1, r.2)) (b, st)).2
      = cs.foldl (fun s c => (add_chunk s c).2) st := by
  induction cs with
  | nil => intro st b; rfl
  | cons c rest ih =>
    intro st b
    simp only [List.foldl_cons]
    exact ih (add_chunk st c).2 _

theorem add_chunks_batch_KeysOk (st : StoreState) (cs : List DocumentChunk) (h : KeysOk st) :
    KeysOk (add_chunks_batch st cs).2 := by
  unfold add_chunks_batch
  rw [add_chunks_batch_snd]
  induction cs generalizing st with
  | nil => exact h
  | cons c rest ih =>
    simp only [List.foldl_cons]
    exact ih (add_chunk st c).2 (add_chunk_KeysOk st c h)

theorem applyOp_KeysOk (st : StoreState) (op : StoreOp) (h : KeysOk st) :
    KeysOk (applyOp st op) := by
  cases op with
  | add c => exact add_chunk_KeysOk st c h
  | addBatch cs => exact add_chunks_batch_KeysOk st cs h
  | remove id => exact remove_chunk_KeysOk st id h
  | clearOp => exact clearStore_KeysOk st

theorem initStore_KeysOk (cfg : VectorStoreConfig) : KeysOk (initStore cfg) := by
  unfold initStore KeysOk liveKeys
  simp

theorem applyOps_KeysOk (st : StoreState) (ops : List StoreOp) (h : KeysOk st) :
    KeysOk (applyOps st ops) := by
  unfold applyOps
  induction ops generalizing st with
  | nil => exact h
  | cons op rest ih =>
    simp only [List.foldl_cons]
    exact ih (applyOp st op) (applyOp_KeysOk st op h)

/-- C2.  For every finite sequence of add / add-batch / remove / clear
operations from a fresh store, the reached state has pairwise-distinct live
keys, no retired key is ever live again before the next clear (keys are
never reassigned), every live key is below the strictly increasing counter,
and `clear` resets the counter to zero. -/
theorem c2_theorem : ∀ (cfg : VectorStoreConfig) (ops : List StoreOp),
  ((liveKeys (applyOps (initStore cfg) ops)).Nodup)
  ∧ (∀ k ∈ (applyOps (initStore cfg) ops).retired, k ∉ liveKeys (applyOps (initStore cfg) ops))
  ∧ (∀ k ∈ liveKeys (applyOps (initStore cfg) ops), k < (applyOps (initStore cfg) ops).next_key)
  ∧ (applyOp (applyOps (initStore cfg) ops) .clearOp).next_key = 0 := by
  intro cfg ops
  obtain ⟨h1, h2, h3, h4, _, _, _⟩ := applyOps_KeysOk (initStore cfg) ops (initStore_KeysOk cfg)
  exact ⟨h1, h4, h2, rfl⟩

theorem add_chunk_DimOk (st : StoreState) (c : DocumentChunk) (h : DimOk st) :
    DimOk (add_chunk st c).2 := by
  unfold add_chunk
  by_cases hd : c.embedding.length ≠ st.config.dimension
  · rw [if_pos hd]; exact h
  rw [if_neg hd]
  by_cases hdup : (lookupKV st.id_to_key c.id).isSome = true
  · rw [if_pos hdup]; exact h
  rw [if_neg hdup]
  intro p hp
  rcases mem_insertKV hp with hm | he
  · exact h p hm
  · rw [he]
    simpa using not_ne_iff.mp hd

theorem applyOp_DimOk (st : StoreState) (op : StoreOp) (h : DimOk st) :
    DimOk (applyOp st op) := by
  cases op with
  | add c => exact add_chunk_DimOk st c h
  | addBatch cs =>
    show DimOk (add_chunks_batch st cs).2
    unfold add_chunks_batch
    rw [add_chunks_batch_snd]
    induction cs generalizing st with
    | nil => exact h
    | cons c rest ih =>
      simp only [List.foldl_cons]
      exact ih (add_chunk st c).2 (add_chunk_DimOk st c h)
  | remove id =>
    show DimOk (remove_chunk st id).2
    unfold remove_chunk
    cases hl : lookupKV st.id_to_key id with
    | none => exact h
    | some key =>
      dsimp only
      intro p hp
      exact h p ((List.filter_sublist _).mem hp)
  | clearOp =>
    intro p hp
    exact absurd hp (List.not_mem_nil p)

theorem mem_foldl_insertKV {α β : Type} [BEq α] :
    ∀ (l m : List (α × β)) (q : α × β),
    q ∈ l.foldl (fun acc p => insertKV acc p.1 p.2) m → q ∈ m ∨ q ∈ l := by
  intro l
  induction l with
  | nil => intro m q hq; exact Or.inl hq
  | cons p rest ih =>
    intro m q hq
    simp only [List.foldl_cons] at hq
    rcases ih (insertKV m p.1 p.2) q hq with hm | hl
    · rcases mem_insertKV hm with hm2 | he
      · exact Or.inl hm2
      · right
        rw [he]
        exact List.mem_cons_self _ _
    · right
      exact List.mem_cons_of_mem p hl

theorem mem_rebuildChunks {l : List (Nat × DocumentChunk)} {q : Nat × DocumentChunk}
    (hq : q ∈ rebuildChunks l) : q ∈ l := by
  rcases mem_foldl_insertKV l [] q hq with hm | hl
  · exact absurd hm (List.not_mem_nil q)
  · exact hl

/-- C3 amended.  `add_chunk` rejects a wrong-dimension chunk without any
mutation (and `add_chunks_batch` applies the same per-item check); the
dimension invariant is preserved by every store operation; and `load`
preserves it when the loaded file was persisted by a store of the same
dimension satisfying the invariant.  `load` itself performs no dimension
validation, so loading a file persisted under a different dimension can
violate the invariant (see the counterexample). -/
theorem c3_theorem :
  (∀ (st : StoreState) (c : DocumentChunk),
    c.embedding.length ≠ st.config.dimension → add_chunk st c = (false, st))
  ∧ (∀ (st : StoreState) (op : StoreOp), DimOk st → DimOk (applyOp st op))
  ∧ (∀ (stA stB : StoreState), DimOk stA → stA.config.dimension = stB.config.dimension →
      DimOk (load stB (save stA)).2) := by
  refine ⟨?_, applyOp_DimOk, ?_⟩
  · intro st c hd
    unfold add_chunk
    rw [if_pos hd]
  · intro stA stB hA hdim
    intro p hp
    have hp2 : p ∈ stA.chunks := mem_rebuildChunks hp
    have := hA p hp2
    rw [this] at *
    exact hdim

/-- Witness for the C3 amended theorem at concrete inputs: a length-1
embedding is rejected by a dimension-2 store, removal preserves the
invariant on a concrete store, and a same-dimension save/load round trip
preserves it. -/
theorem c3_witness :
  ((([1] : Vec).length ≠ (initStore (storeCfg 2)).config.dimension)
    ∧ add_chunk (initStore (storeCfg 2)) ⟨"b".data, "b".data, [1], []⟩
        = (false, initStore (storeCfg 2)))
  ∧ (DimOk stA ∧ DimOk (applyOp stA (.remove "z".data)))
  ∧ (stA.config.dimension = (initStore (storeCfg 2)).config.dimension
    ∧ DimOk (load (initStore (storeCfg 2)) (save stA)).2) := by
  refine ⟨⟨by decide, c3_theorem.1 (initStore (storeCfg 2)) ⟨"b".data, "b".data, [1], []⟩ (by decide)⟩,
    ⟨?_, ?_⟩, rfl, ?_⟩
  · intro p hp
    have hp9 : p ∈ [(0, chunkA)] := hp
    rw [List.mem_singleton.mp hp9]
    rfl
  · apply c3_theorem.2.1 stA (.remove "z".data)
    intro p hp
    have hp9 : p ∈ [(0, chunkA)] := hp
    rw [List.mem_singleton.mp hp9]
    rfl
  · apply c3_theorem.2.2 stA (initStore (storeCfg 2))
    · intro p hp
      have hp9 : p ∈ [(0, chunkA)] := hp
      rw [List.mem_singleton.mp hp9]
      rfl
    · rfl

theorem foldl_insertKV_eq_append {β : Type} :
    ∀ (l m : List (Nat × β)), ((m.map Prod.fst ++ l.map Prod.fst).Nodup) →
    l.foldl (fun acc p => insertKV acc p.1 p.2) m = m ++ l := by
  intro l
  induction l with
  | nil => intro m _; simp
  | cons p rest ih =>
    intro m h
    simp only [List.foldl_cons]
    have hdisj := (List.nodup_append.mp h).2.2
    have hnotin : m.any (fun q => q.1 == p.1) = false := by
      rw [List.any_eq_false]
      intro q hq
      have hne : q.1 ∉ (p :: rest).map Prod.fst := hdisj (List.mem_map_of_mem Prod.fst hq)
      simp only [List.map_cons, List.mem_cons] at hne
      exact fun he => hne (Or.inl (eq_of_beq he))
    rw [insertKV_append _ _ _ hnotin]
    rw [ih (m ++ [(p.1, p.2)]) ?hnd]
    · simp
    case hnd =>
      simp only [List.map_append, List.map_cons, List.map_nil] at h ⊢
      simpa [List.append_assoc] using h

theorem rebuildChunks_eq_self (l : List (Nat × DocumentChunk)) (h : (l.map Prod.fst).Nodup) :
    rebuildChunks l = l := by
  unfold rebuildChunks
  have := foldl_insertKV_eq_append l [] (by simpa using h)
  simpa using this

theorem searchStore_congr (dist : Vec → Vec → Rat) (s1 s2 : StoreState) (q : Vec) (k : Nat)
    (t : Rat) (hc : s1.config = s2.config) (hi : s1.index = s2.index)
    (hch : s1.chunks = s2.chunks) :
    searchStore dist s1 q k t = searchStore dist s2 q k t := by
  unfold searchStore
  rw [hc, hi, hch]

/-- C4.  For every reachable store state, `save` followed by `load` into a
fresh store with the same configuration succeeds and reconstructs the
identical observable state: the same `size()`, the same `search` results
for every metric, query, `top_k` and threshold, and the same `next_key`
counter — so every key that was live or retired before the save stays below
the restored counter and no key assigned after the load can collide. -/
theorem c4_theorem : ∀ (cfg : VectorStoreConfig) (ops : List StoreOp),
  (load (initStore (applyOps (initStore cfg) ops).config) (save (applyOps (initStore cfg) ops))).1
    = true
  ∧ storeSize (load (initStore (applyOps (initStore cfg) ops).config)
      (save (applyOps (initStore cfg) ops))).2 = storeSize (applyOps (initStore cfg) ops)
  ∧ (∀ (dist : Vec → Vec → Rat) (q : Vec) (k : Nat) (t : Rat),
      searchStore dist (load (initStore (applyOps (initStore cfg) ops).config)
        (save (applyOps (initStore cfg) ops))).2 q k t
      = searchStore dist (applyOps (initStore cfg) ops) q k t)
  ∧ (load (initStore (applyOps (initStore cfg) ops).config)
      (save (applyOps (initStore cfg) ops))).2.next_key = (applyOps (initStore cfg) ops).next_key
  ∧ (∀ k, (k ∈ liveKeys (applyOps (initStore cfg) ops)
        ∨ k ∈ (applyOps (initStore cfg) ops).retired) →
      k < (load (initStore (applyOps (initStore cfg) ops).config)
        (save (applyOps (initStore cfg) ops))).2.next_key) := by
  intro cfg ops
  obtain ⟨h1, h2, h3, _, _, _, _⟩ := applyOps_KeysOk (initStore cfg) ops (initStore_KeysOk cfg)
  have hch : rebuildChunks (applyOps (initStore cfg) ops).chunks
      = (applyOps (initStore cfg) ops).chunks := rebuildChunks_eq_self _ h1
  refine ⟨rfl, rfl, ?_, rfl, ?_⟩
  · intro dist q k t
    exact searchStore_congr dist _ _ q k t rfl rfl hch
  · intro k hk
    rcases hk with h | h
    · exact h2 k h
    · exact h3 k h

end RAGSpec
